import Mathlib

/-!
Verification of the social_post_generator repository.

Shallow embedding conventions:
* Python strings are modelled as `List Char` (sequences of Unicode code
  points); `String.toList` converts literal text.
* Python machine integers are modelled as `Int` (they are unbounded in
  Python), counters as `Nat`.
* Fallible code returns `Except AppException`; the exception taxonomy of
  `src/exceptions.py` is modelled by the `AppException` record together
  with one constructor function per exception class.
* External collaborators (the `validators` library, `urllib.parse`,
  the HTTP transport, BeautifulSoup's `get_text`, and the OpenAI SDK call)
  are oracle parameters: the repository's control flow around them is
  embedded exactly, their internals are not part of the repository.
* Whitespace: the embedding uses the six ASCII whitespace characters
  matched by Python's `\s` and stripped by `str.strip`; other Unicode
  whitespace is outside the model.
-/

/-- Whitespace predicate shared by the model of `str.strip` and of the
regular expression class `\s` (ASCII fragment). -/
def isPySpace (c : Char) : Bool :=
  c = ' ' || c = '\t' || c = '\n' || c = '\r' || c = '\x0b' || c = '\x0c'

/-- Model of Python `str.strip()`: remove leading and trailing whitespace. -/
def pyStrip (s : List Char) : List Char :=
  ((s.dropWhile isPySpace).reverse.dropWhile isPySpace).reverse

/-- Helper for `collapseWs`: the boolean records whether the previous input
character was whitespace (so the single replacement space for the current
run has already been emitted). -/
def collapseWsAux : Bool → List Char → List Char
  | _, [] => []
  | prevWs, c :: rest =>
    if isPySpace c then
      if prevWs then collapseWsAux true rest
      else ' ' :: collapseWsAux true rest
    else c :: collapseWsAux false rest

/-- Model of `re.sub(r'\s+', ' ', text)` in `clean_text` (agent.py:359):
every maximal run of whitespace becomes a single space. -/
def collapseWs (s : List Char) : List Char :=
  collapseWsAux false s

/-- Helper for `collapseNl`, same run-tracking scheme as `collapseWsAux`. -/
def collapseNlAux : Bool → List Char → List Char
  | _, [] => []
  | prevNl, c :: rest =>
    if c = '\n' then
      if prevNl then collapseNlAux true rest
      else '\n' :: collapseNlAux true rest
    else c :: collapseNlAux false rest

/-- Model of `re.sub(r'\n+', '\n', text)` in `clean_text` (agent.py:362):
every maximal run of newlines becomes a single newline. -/
def collapseNl (s : List Char) : List Char :=
  collapseNlAux false s

/-- Model of `SocialPostAgent.clean_text` (agent.py:348-367): collapse
whitespace runs to one space, collapse newline runs, strip both ends. -/
def clean_text (s : List Char) : List Char :=
  pyStrip (collapseNl (collapseWs s))

/-- Model of Python `s.rsplit(' ', 1)[0]` (agent.py:527): everything before
the last space of `s`, or `s` itself when `s` contains no space. -/
def rsplitBefore (s : List Char) : List Char :=
  match s.reverse.dropWhile (fun c => !(c = ' ')) with
  | [] => s
  | _ :: rest => rest.reverse

/-- Model of step 9 of `SocialPostAgent.generate_post` (agent.py:519-527):
trim the generated post; if it is longer than the clamped maximum, cut the
first `post_max_length` characters back to the last space and append an
ellipsis marker. -/
def truncate_post (post : List Char) (post_max_length : Int) : List Char :=
  let post := pyStrip post
  if post_max_length < (post.length : Int) then
    rsplitBefore (post.take post_max_length.toNat) ++ "...".toList
  else post

/-- Model of the max-length resolution of `SocialPostAgent.generate_post`
(agent.py:470-474): `max_length or settings.max_post_length` followed by
clamping into [400, 4000].  Python's `or` takes the configured default both
when `max_length` is `None` and when it is `0` (falsy). -/
def resolveMaxLength (max_length : Option Int) (max_post_length : Int) : Int :=
  let m := match max_length with
    | none => max_post_length
    | some n => if n = 0 then max_post_length else n
  if m < 400 then 400
  else if 4000 < m then 4000
  else m

/-- Model of Python `str.lower()` restricted to the character ranges the
style keys use: ASCII letters and the Cyrillic block of the table. -/
def pyLower (c : Char) : Char :=
  if 'A' ≤ c ∧ c ≤ 'Z' then Char.ofNat (c.toNat + 32)
  else if 'А' ≤ c ∧ c ≤ 'Я' then Char.ofNat (c.toNat + 32)
  else if c = 'Ё' then 'ё'
  else c

/-- The (key, identifier) projection of `SocialPostAgent.STYLES`
(agent.py:32-142) in source order.  The remaining fields (display name,
description, emoji, prompt texts) configure prompt rendering, which the
pipeline model treats as opaque input to the LLM oracle. -/
def STYLES : List (List Char × List Char) :=
  [("ироничный".toList, "ironic".toList),
   ("профессиональный".toList, "professional".toList),
   ("мотивационный".toList, "motivational".toList),
   ("юмористический".toList, "humorous".toList),
   ("образовательный".toList, "educational".toList),
   ("эмоциональный".toList, "emotional".toList)]

/-- Model of `SocialPostAgent.DEFAULT_STYLE` (agent.py:145). -/
def DEFAULT_STYLE : List Char := "ироничный".toList

/-- Model of `SocialPostAgent.validate_style` (agent.py:406-435): empty or
absent input gives the default; otherwise lowercase and trim, then look the
result up as a table key, then as a style identifier, and fall back to the
default when neither matches. -/
def validate_style (style : Option (List Char)) : List Char :=
  match style with
  | none => DEFAULT_STYLE
  | some s =>
    if s = [] then DEFAULT_STYLE
    else
      let s := pyStrip (s.map pyLower)
      if (STYLES.lookup s).isSome then s
      else
        match STYLES.find? (fun kv => kv.2 == s) with
        | some kv => kv.1
        | none => DEFAULT_STYLE

/-! ## Error taxonomy (src/exceptions.py) -/

/-- Values stored in an exception's `details` mapping. -/
inductive DVal where
  | s (v : List Char)
  | n (v : Int)
  | b (v : Bool)
  | nullv
deriving DecidableEq

/-- A Python dict with string keys, as an ordered association list (all
dicts built by the repository have pairwise distinct keys). -/
abbrev Dict := List (List Char × DVal)

/-- Model of `SocialPostGeneratorException` (exceptions.py:14-68): the
fields every taxonomy exception carries. -/
structure AppException where
  message : List Char
  user_message : List Char
  error_code : List Char
  details : Dict
deriving DecidableEq

/-- Model of `SocialPostGeneratorException.to_dict` (exceptions.py:56-68). -/
def to_dict (e : AppException) : Dict :=
  [("success".toList, DVal.b false),
   ("error".toList, DVal.s e.user_message),
   ("error_code".toList, DVal.s e.error_code)] ++ e.details

/-- Truthiness of an optional string (Python: `None` and `""` are falsy). -/
def strTruthy : Option (List Char) → Bool
  | none => false
  | some s => !(s = [])

/-- Truthiness of an optional integer (Python: `None` and `0` are falsy). -/
def intTruthy : Option Int → Bool
  | none => false
  | some n => !(n = 0)

/-- Model of `URLValidationError.__init__` (exceptions.py:84-108); the
error code is inherited from `ValidationError`. -/
def URLValidationError (url : List Char) (reason : Option (List Char)) : AppException :=
  { message := "Некорректный URL: ".toList ++ url ++
      (match reason with
       | some r => " (".toList ++ r ++ ")".toList
       | none => []),
    user_message :=
      ("Некорректный URL. Пожалуйста, укажите полный URL " ++
       "с протоколом (http:// или https://)").toList,
    error_code := "VALIDATION_ERROR".toList,
    details := [("url".toList, DVal.s url),
                ("reason".toList,
                 match reason with
                 | some r => DVal.s r
                 | none => DVal.nullv)] }

/-- Model of `URLFetchError.__init__` (exceptions.py:111-152); `reason` and
`status_code` enter the details only when truthy. -/
def URLFetchError (url : List Char) (reason : Option (List Char))
    (status_code : Option Int) : AppException :=
  { message := "Ошибка загрузки ".toList ++ url ++
      (match status_code with
       | some c => if c = 0 then [] else " (HTTP ".toList ++ (toString c).toList ++ ")".toList
       | none => []) ++
      (match reason with
       | some r => if r = [] then [] else ": ".toList ++ r
       | none => []),
    user_message :=
      ("Не удалось загрузить страницу. " ++
       "Проверьте правильность URL и доступность сайта.").toList,
    error_code := "URL_FETCH_ERROR".toList,
    details := [("url".toList, DVal.s url)] ++
      (match status_code with
       | some c => if c = 0 then [] else [("status_code".toList, DVal.n c)]
       | none => []) ++
      (match reason with
       | some r => if r = [] then [] else [("reason".toList, DVal.s r)]
       | none => []) }

/-- Model of `TextExtractionError.__init__` (exceptions.py:155-182). -/
def TextExtractionError (url : List Char) (reason : Option (List Char)) : AppException :=
  { message := "Не удалось извлечь текст из ".toList ++ url ++
      (match reason with
       | some r => if r = [] then [] else ": ".toList ++ r
       | none => []),
    user_message :=
      ("На странице не найдено достаточно текста для генерации поста. " ++
       "Попробуйте другой URL.").toList,
    error_code := "TEXT_EXTRACTION_ERROR".toList,
    details := [("url".toList, DVal.s url),
                ("reason".toList,
                 match reason with
                 | some r => DVal.s r
                 | none => DVal.nullv)] }

/-- An underlying provider exception as `OpenAIError` records it: the type
name and the stringified message. -/
abbrev ApiErr := List Char × List Char

/-- Model of `OpenAIError.__init__` (exceptions.py:185-226). -/
def OpenAIError (reason : List Char) (api_error : Option ApiErr)
    (retry_count : Nat) : AppException :=
  { message := "Ошибка OpenAI API: ".toList ++ reason ++
      (match api_error with
       | some te => " (".toList ++ te.1 ++ ": ".toList ++ te.2 ++ ")".toList
       | none => []),
    user_message :=
      ("Временные проблемы с генерацией. " ++
       "Мы уже работаем над решением. Попробуйте позже.").toList,
    error_code := "OPENAI_ERROR".toList,
    details := [("reason".toList, DVal.s reason),
                ("retry_count".toList, DVal.n retry_count)] ++
      (match api_error with
       | some te => [("api_error_type".toList, DVal.s te.1),
                     ("api_error_message".toList, DVal.s te.2)]
       | none => []) }

/-- Model of `RateLimitError.__init__` (exceptions.py:229-254): the reason
mentions the retry-after hint, and the hint is appended to the details,
in both cases only when the hint is truthy (present and nonzero); the
error code and user message are the rate-limit overrides of the dynamic
dispatch in the base constructor. -/
def RateLimitError (retry_after : Option Int) : AppException :=
  let reason := "Превышен rate limit".toList ++
    (match retry_after with
     | some n => if n = 0 then []
         else ", повторите через ".toList ++ (toString n).toList ++ " секунд".toList
     | none => [])
  { message := "Ошибка OpenAI API: ".toList ++ reason,
    user_message :=
      ("Превышен лимит запросов. " ++
       "Пожалуйста, подождите немного перед следующей попыткой.").toList,
    error_code := "RATE_LIMIT_ERROR".toList,
    details := [("reason".toList, DVal.s reason),
                ("retry_count".toList, DVal.n 0)] ++
      (match retry_after with
       | some n => if n = 0 then [] else [("retry_after".toList, DVal.n n)]
       | none => []) }

/-- Model of `PostGenerationError.__init__` (exceptions.py:257-289). -/
def PostGenerationError (reason : List Char) (url style : Option (List Char)) : AppException :=
  { message := "Ошибка генерации поста: ".toList ++ reason,
    user_message :=
      ("Не удалось сгенерировать пост. " ++
       "Пожалуйста, попробуйте другой URL или стиль.").toList,
    error_code := "POST_GENERATION_ERROR".toList,
    details := [("reason".toList, DVal.s reason)] ++
      (match url with
       | some u => if u = [] then [] else [("url".toList, DVal.s u)]
       | none => []) ++
      (match style with
       | some st => if st = [] then [] else [("style".toList, DVal.s st)]
       | none => []) }

/-- Model of `ConfigurationError.__init__` (exceptions.py:292-317). -/
def ConfigurationError (parameter reason : List Char) : AppException :=
  { message := "Ошибка конфигурации '".toList ++ parameter ++ "': ".toList ++ reason,
    user_message :=
      ("Ошибка конфигурации приложения. " ++
       "Пожалуйста, обратитесь к администратору.").toList,
    error_code := "CONFIGURATION_ERROR".toList,
    details := [("parameter".toList, DVal.s parameter),
                ("reason".toList, DVal.s reason)] }

/-- An exception reaching `handle_exception`: either one of the taxonomy
kinds or any other exception, the latter carrying its type name and its
stringified internal message. -/
inductive Thrown where
  | app (e : AppException)
  | other (ty msg : List Char)

/-- Model of `handle_exception` (exceptions.py:320-346): taxonomy kinds use
their own `to_dict`; anything else maps to a fixed generic dictionary. -/
def handle_exception : Thrown → Dict
  | .app e => to_dict e
  | .other _ _ =>
    [("success".toList, DVal.b false),
     ("error".toList,
      DVal.s ("Произошла непредвиденная ошибка. " ++
              "Администратор уже уведомлен.").toList),
     ("error_code".toList, DVal.s "INTERNAL_ERROR".toList)]

/-! ## URL validation (agent.py:157-197) -/

/-- The projection of `urllib.parse.urlparse` that `validate_url` reads. -/
structure UrlParts where
  scheme : List Char
  netloc : List Char
deriving DecidableEq

/-- Model of `SocialPostAgent.validate_url` (agent.py:157-197),
parameterised by the external `validators.url` structural check and by
`urllib.parse.urlparse`. -/
def validate_url (structuralValid : List Char → Bool)
    (parse : List Char → UrlParts) (url : List Char) :
    Except AppException (List Char) :=
  if pyStrip url = [] then
    .error (URLValidationError url (some "URL пустой".toList))
  else if structuralValid (pyStrip url) = false then
    .error (URLValidationError (pyStrip url) (some "Невалидный формат URL".toList))
  else if ¬(parse (pyStrip url)).scheme = "http".toList ∧
      ¬(parse (pyStrip url)).scheme = "https".toList then
    .error (URLValidationError (pyStrip url)
      (some ("Неподдерживаемый протокол: ".toList ++ (parse (pyStrip url)).scheme)))
  else if (parse (pyStrip url)).netloc = [] then
    .error (URLValidationError (pyStrip url) (some "Отсутствует доменное имя".toList))
  else
    .ok (pyStrip url)

/-! ## Generation client (src/openai_module.py) -/

/-- The statistics counters of `OpenAIClient.__init__` (openai_module.py:71-73). -/
structure ClientState where
  total_requests : Nat
  total_tokens : Nat
  failed_requests : Nat
deriving DecidableEq

/-- A freshly constructed client's counters. -/
def freshClient : ClientState := ⟨0, 0, 0⟩

/-- Success bookkeeping of `generate_text` (openai_module.py:165-171):
`total_requests` is incremented and reported token usage, when present, is
added to `total_tokens`. -/
def recordSuccess (st : ClientState) (tokens : Option Nat) : ClientState :=
  let st := { st with total_requests := st.total_requests + 1 }
  match tokens with
  | some k => { st with total_tokens := st.total_tokens + k }
  | none => st

/-- The `self.failed_requests += 1` bookkeeping on terminal failures. -/
def bumpFailed (st : ClientState) : ClientState :=
  { st with failed_requests := st.failed_requests + 1 }

/-- Behaviour of one upstream chat-completion attempt, as the `except`
arms of `generate_text` distinguish it (openai_module.py:180-259).  The
`msg` components model the stringified underlying exception. -/
inductive AttemptResult where
  | ok (text : List Char) (tokens : Option Nat)
  | rateLimit (retry_after : Option Int) (msg : List Char)
  | timeout (msg : List Char)
  | connErr (msg : List Char)
  | apiErr (msg : List Char)
  | unexpected (ty msg : List Char)

/-- A terminal failure of `generate_text`, before it is materialised as an
exception object. -/
inductive GenErr where
  | rateLimited (retry_after : Option Int)
  | upstream (reason : List Char) (api_error : Option ApiErr) (retry_count : Nat)
deriving DecidableEq

/-- The exception a terminal failure raises. -/
def GenErr.toException : GenErr → AppException
  | .rateLimited ra => RateLimitError ra
  | .upstream r ae rc => OpenAIError r ae rc

instance {ε α : Type} [DecidableEq ε] [DecidableEq α] : DecidableEq (Except ε α) :=
  fun x y =>
    match x, y with
    | .ok a, .ok b =>
      if h : a = b then .isTrue (by subst h; rfl)
      else .isFalse (fun hc => h (Except.ok.inj hc))
    | .error a, .error b =>
      if h : a = b then .isTrue (by subst h; rfl)
      else .isFalse (fun hc => h (Except.error.inj hc))
    | .ok _, .error _ => .isFalse (fun hc => Except.noConfusion hc)
    | .error _, .ok _ => .isFalse (fun hc => Except.noConfusion hc)

/-- Everything one `generate_text` invocation produces: the returned text
or terminal failure, the updated counters, the backoff sleeps performed
(in seconds, in order), and how many upstream attempts were made. -/
structure GenOutcome where
  result : Except GenErr (List Char)
  state : ClientState
  delays : List Nat
  attemptsMade : Nat
deriving DecidableEq

/-- The retry loop of `OpenAIClient.generate_text` (openai_module.py:146-267).
`env attempt` is the oracle for the upstream call of the zero-based
`attempt`; `fuel` counts the loop iterations still allowed, so the loop is
entered with `fuel = maxRetries` and a branch may retry exactly when at
least one more iteration remains (`attempt < max_retries - 1` in the
source).  Rate limits and generic API errors fail immediately; timeouts,
connection errors and unexpected errors sleep `2 ^ attempt` seconds and
retry, failing on the last attempt; a success strips the text and updates
the counters; an exhausted loop (only reachable when `maxRetries = 0`)
fails with the recorded last error. -/
def genLoop (env : Nat → AttemptResult) (maxRetries : Nat) :
    ClientState → Nat → List Nat → Option ApiErr → Nat → GenOutcome
  | st, attempt, delays, lastError, 0 =>
    ⟨.error (.upstream "Все попытки исчерпаны".toList lastError maxRetries),
      bumpFailed st, delays, attempt⟩
  | st, attempt, delays, _, fuel + 1 =>
    match env attempt with
    | .ok text tokens =>
      ⟨.ok (pyStrip text), recordSuccess st tokens, delays, attempt + 1⟩
    | .rateLimit ra _ =>
      ⟨.error (.rateLimited ra), bumpFailed st, delays, attempt + 1⟩
    | .timeout m =>
      match fuel with
      | 0 =>
        ⟨.error (.upstream "Таймаут запроса".toList
            (some ("APITimeoutError".toList, m)) (attempt + 1)),
          bumpFailed st, delays, attempt + 1⟩
      | f + 1 =>
        genLoop env maxRetries st (attempt + 1) (delays ++ [2 ^ attempt])
          (some ("APITimeoutError".toList, m)) (f + 1)
    | .connErr m =>
      match fuel with
      | 0 =>
        ⟨.error (.upstream "Ошибка соединения".toList
            (some ("APIConnectionError".toList, m)) (attempt + 1)),
          bumpFailed st, delays, attempt + 1⟩
      | f + 1 =>
        genLoop env maxRetries st (attempt + 1) (delays ++ [2 ^ attempt])
          (some ("APIConnectionError".toList, m)) (f + 1)
    | .apiErr m =>
      ⟨.error (.upstream m (some ("APIError".toList, m)) (attempt + 1)),
        bumpFailed st, delays, attempt + 1⟩
    | .unexpected ty m =>
      match fuel with
      | 0 =>
        ⟨.error (.upstream "Неожиданная ошибка".toList (some (ty, m)) (attempt + 1)),
          bumpFailed st, delays, attempt + 1⟩
      | f + 1 =>
        genLoop env maxRetries st (attempt + 1) (delays ++ [2 ^ attempt])
          (some (ty, m)) (f + 1)

/-- Model of `OpenAIClient.generate_text` (openai_module.py:98-267): run
the retry loop from attempt 0 with no sleeps performed and no last error. -/
def generate_text (env : Nat → AttemptResult) (max_retries : Nat)
    (st : ClientState) : GenOutcome :=
  genLoop env max_retries st 0 [] none max_retries

/-- Boolean success discriminator for an `Except` result. -/
def isOkB {ε α : Type} : Except ε α → Bool
  | .ok _ => true
  | .error _ => false

/-- Running a sequence of `generate_text` invocations on one client: each
list entry supplies the attempt oracle and the `max_retries` argument of
one invocation, and the counters are threaded through. -/
def runCalls (calls : List ((Nat → AttemptResult) × Nat)) (st : ClientState) :
    ClientState :=
  calls.foldl (fun s c => (generate_text c.1 c.2 s).state) st

/-- The number of invocations in a sequence that succeed (the result of an
invocation does not depend on the counter state, so it is read off from a
fresh client). -/
def okCount (calls : List ((Nat → AttemptResult) × Nat)) : Nat :=
  calls.countP (fun c => isOkB (generate_text c.1 c.2 freshClient).result)

/-- The number of invocations in a sequence that terminally fail. -/
def errCount (calls : List ((Nat → AttemptResult) × Nat)) : Nat :=
  calls.countP (fun c => !(isOkB (generate_text c.1 c.2 freshClient).result))

/-- Rounding of `round(x, 2)` (openai_module.py:310) transported to exact
rationals; Python's float rounding resolves exact ties to even, which can
differ from this model only on exact half-cent ties. -/
def round2 (q : ℚ) : ℚ := (⌊q * 100 + 1 / 2⌋ : ℚ) / 100

/-- The statistics dictionary of `OpenAIClient.get_statistics`
(openai_module.py:293-313); the constant `model` echo of the configuration
is omitted. -/
structure Statistics where
  total_requests : Nat
  failed_requests : Nat
  success_rate : ℚ
  total_tokens : Nat
deriving DecidableEq

/-- Model of `OpenAIClient.get_statistics` (openai_module.py:293-313). -/
def get_statistics (st : ClientState) : Statistics :=
  let success_rate : ℚ :=
    if 0 < st.total_requests then
      ((st.total_requests : ℚ) - (st.failed_requests : ℚ)) /
        (st.total_requests : ℚ) * 100
    else 0
  { total_requests := st.total_requests,
    failed_requests := st.failed_requests,
    success_rate := round2 success_rate,
    total_tokens := st.total_tokens }

/-! ## Post generation pipeline (agent.py:437-535) -/

/-- Oracles for the pipeline's external collaborators: the structural URL
check and URL parser of `validate_url`, the outcome of `fetch_html`, the
text BeautifulSoup would extract (`get_text`) or the parse failure reason,
and the upstream behaviour of the LLM call.  The LLM oracle additionally
receives the prompt text (the extracted text truncated to the prompt
budget), standing for the rendered prompt pair of steps 6-7. -/
structure PipeEnv where
  structuralValid : List Char → Bool
  parse : List Char → UrlParts
  fetch : List Char → Except AppException (List Char)
  soupText : List Char → Except (List Char) (List Char)
  llm : List Char → Nat → AttemptResult

/-- Model of `SocialPostAgent.extract_text` (agent.py:286-346): the raw
extracted text is cleaned with `clean_text`; a parse failure becomes a
`TextExtractionError` with url `"unknown"`. -/
def extract_text (env : PipeEnv) (html : List Char) :
    Except AppException (List Char) :=
  match env.soupText html with
  | .error r => .error (TextExtractionError "unknown".toList (some r))
  | .ok t => .ok (clean_text t)

/-- What one pipeline invocation produces: the post or the exception, the
client counters afterwards, and how many `generate_text` calls were made. -/
structure PipeResult where
  out : Except AppException (List Char)
  client : ClientState
  llmCalls : Nat
deriving DecidableEq

/-- Model of `SocialPostAgent.generate_post` (agent.py:437-535).
Steps in source order: validate the URL, resolve the style, clamp the
maximum length, fetch, extract, check the minimum text length, truncate
the text to the 3000-character prompt budget, call the generation client
(one invocation with `max_retries = 3`; prompt rendering of steps 6-7 is
absorbed into the oracle, which receives the truncated text), wrap any
client failure as `PostGenerationError` with the stringified underlying
exception, and finally trim/truncate the generated post. -/
def generate_post (env : PipeEnv) (st : ClientState) (url : List Char)
    (style : Option (List Char)) (max_length : Option Int)
    (max_post_length : Int) (min_text_length : Nat) : PipeResult :=
  match validate_url env.structuralValid env.parse url with
  | .error e => ⟨.error e, st, 0⟩
  | .ok url =>
    let styleKey := validate_style style
    let post_max_length := resolveMaxLength max_length max_post_length
    match env.fetch url with
    | .error e => ⟨.error e, st, 0⟩
    | .ok html =>
      match extract_text env html with
      | .error e => ⟨.error e, st, 0⟩
      | .ok text =>
        if text.length < min_text_length then
          ⟨.error (TextExtractionError url
              (some ("Текста недостаточно: ".toList ++
                (toString text.length).toList ++ " символов".toList))),
            st, 0⟩
        else
          let text := if 3000 < text.length then text.take 3000 ++ "...".toList else text
          let g := generate_text (env.llm text) 3 st
          match g.result with
          | .error ge =>
            ⟨.error (PostGenerationError ge.toException.message
                (some url) (some styleKey)), g.state, 1⟩
          | .ok raw =>
            ⟨.ok (truncate_post raw post_max_length), g.state, 1⟩

/-- Concrete oracle set used by closed instances of the pipeline theorems:
every URL passes the structural check and parses to an https location, the
fetch returns a fixed page, extraction returns `soup`, and every upstream
attempt succeeds with `llmText`. -/
def witnessEnv (soup llmText : List Char) : PipeEnv :=
  { structuralValid := fun _ => true,
    parse := fun _ => ⟨"https".toList, "example.com".toList⟩,
    fetch := fun _ => .ok "<html></html>".toList,
    soupText := fun _ => .ok soup,
    llm := fun _ _ => .ok llmText none }

/-- Concrete attempt oracle timing out twice and succeeding afterwards. -/
def c3Env : Nat → AttemptResult := fun n =>
  if n < 2 then .timeout "t".toList else .ok " hello ".toList (some 5)

/-- Concrete extracted page text for closed pipeline instances: long
enough to pass the minimum-length check. -/
def c1Soup : List Char := List.replicate 150 'b'

/-- Concrete generated text for closed pipeline instances: 451 characters
with a single space, exceeding a clamped maximum of 400. -/
def c1Text : List Char := List.replicate 200 'c' ++ ' ' :: List.replicate 250 'd'

/-! ## Theorems -/

/-- C5 (counterexample): a requested `max_length` of `0` lies below 400, so
the claim demands an effective maximum of 400; with the configured default
maximum 800 the code instead treats `0` as absent (Python falsiness of
`max_length or settings.max_post_length`) and uses 800. -/
theorem resolveMaxLength_zero_cex :
    (0 : Int) < 400 ∧ resolveMaxLength (some 0) 800 = 800 ∧ (800 : Int) ≠ 400 := by
  decide

/-- C5 (amended): for every nonzero requested value below 400 the effective
maximum is 400, for every value above 4000 it is 4000, values inside the
range are kept, and an absent value is treated exactly like a zero value:
the configured default maximum, itself clamped, is used. -/
theorem resolveMaxLength_clamps (n d : Int) (hn : n ≠ 0) :
    (n < 400 → resolveMaxLength (some n) d = 400) ∧
    (4000 < n → resolveMaxLength (some n) d = 4000) ∧
    (400 ≤ n → n ≤ 4000 → resolveMaxLength (some n) d = n) ∧
    resolveMaxLength none d = resolveMaxLength (some 0) d := by
  unfold resolveMaxLength
  simp only [hn, if_false]
  refine ⟨?_, ?_, ?_, ?_⟩ <;> intros <;> split_ifs <;> first | rfl | omega

theorem resolveMaxLength_clamps_witness :
    ((200 : Int) ≠ 0) ∧
    (((200 : Int) < 400 → resolveMaxLength (some 200) 800 = 400) ∧
     ((4000 : Int) < 200 → resolveMaxLength (some 200) 800 = 4000) ∧
     ((400 : Int) ≤ 200 → (200 : Int) ≤ 4000 → resolveMaxLength (some 200) 800 = 200) ∧
     resolveMaxLength none 800 = resolveMaxLength (some 0) 800) :=
  ⟨by decide, resolveMaxLength_clamps 200 800 (by decide)⟩

/-- C7: every input that is blank, fails the structural check, has a
non-http(s) scheme or an empty network location is rejected with a
VALIDATION_ERROR exception, and every accepted input is returned with
surrounding whitespace trimmed and no other change. -/
theorem validate_url_spec (sv : List Char → Bool) (parse : List Char → UrlParts)
    (url : List Char)
    (hbad : pyStrip url = [] ∨ sv (pyStrip url) = false ∨
      (¬(parse (pyStrip url)).scheme = "http".toList ∧
       ¬(parse (pyStrip url)).scheme = "https".toList) ∨
      (parse (pyStrip url)).netloc = []) :
    (∃ e, validate_url sv parse url = .error e ∧
      e.error_code = "VALIDATION_ERROR".toList) ∧
    (∀ sv' parse' url' v, validate_url sv' parse' url' = .ok v → v = pyStrip url') := by
  constructor
  · by_cases h0 : pyStrip url = []
    · exact ⟨URLValidationError url (some "URL пустой".toList),
        by unfold validate_url; rw [if_pos h0], rfl⟩
    by_cases hs : sv (pyStrip url) = false
    · exact ⟨URLValidationError (pyStrip url) (some "Невалидный формат URL".toList),
        by unfold validate_url; rw [if_neg h0, if_pos hs], rfl⟩
    by_cases hsch : ¬(parse (pyStrip url)).scheme = "http".toList ∧
        ¬(parse (pyStrip url)).scheme = "https".toList
    · exact ⟨URLValidationError (pyStrip url)
          (some ("Неподдерживаемый протокол: ".toList ++ (parse (pyStrip url)).scheme)),
        by unfold validate_url; rw [if_neg h0, if_neg hs, if_pos hsch], rfl⟩
    by_cases hnet : (parse (pyStrip url)).netloc = []
    · exact ⟨URLValidationError (pyStrip url) (some "Отсутствует доменное имя".toList),
        by unfold validate_url; rw [if_neg h0, if_neg hs, if_neg hsch, if_pos hnet], rfl⟩
    · exfalso
      rcases hbad with h | h | h | h
      · exact h0 h
      · exact hs h
      · exact hsch h
      · exact hnet h
  · intro sv' parse' url' v hv
    unfold validate_url at hv
    by_cases h0 : pyStrip url' = []
    · rw [if_pos h0] at hv; exact absurd hv (by simp)
    rw [if_neg h0] at hv
    by_cases hs : sv' (pyStrip url') = false
    · rw [if_pos hs] at hv; exact absurd hv (by simp)
    rw [if_neg hs] at hv
    by_cases hsch : ¬(parse' (pyStrip url')).scheme = "http".toList ∧
        ¬(parse' (pyStrip url')).scheme = "https".toList
    · rw [if_pos hsch] at hv; exact absurd hv (by simp)
    rw [if_neg hsch] at hv
    by_cases hnet : (parse' (pyStrip url')).netloc = []
    · rw [if_pos hnet] at hv; exact absurd hv (by simp)
    · rw [if_neg hnet] at hv
      exact (Except.ok.inj hv).symm

theorem validate_url_spec_witness :
    (pyStrip "ftp://host".toList = [] ∨
      (fun _ : List Char => true) (pyStrip "ftp://host".toList) = false ∨
      (¬((fun _ : List Char => UrlParts.mk "ftp".toList "host".toList)
          (pyStrip "ftp://host".toList)).scheme = "http".toList ∧
       ¬((fun _ : List Char => UrlParts.mk "ftp".toList "host".toList)
          (pyStrip "ftp://host".toList)).scheme = "https".toList) ∨
      ((fun _ : List Char => UrlParts.mk "ftp".toList "host".toList)
          (pyStrip "ftp://host".toList)).netloc = []) ∧
    ((∃ e, validate_url (fun _ => true)
        (fun _ => UrlParts.mk "ftp".toList "host".toList) "ftp://host".toList =
          .error e ∧ e.error_code = "VALIDATION_ERROR".toList) ∧
     (∀ sv' parse' url' v, validate_url sv' parse' url' = .ok v → v = pyStrip url')) :=
  ⟨by decide,
   validate_url_spec (fun _ => true)
     (fun _ => UrlParts.mk "ftp".toList "host".toList) "ftp://host".toList
     (by decide)⟩

/-- C9: each taxonomy exception converts to the flat mapping
success=false / error=its user message / error_code=its kind's code,
followed by its details entries; any non-taxonomy exception converts to
one fixed generic INTERNAL_ERROR mapping that is independent of the
internal exception message (so that message never appears in it). -/
theorem to_dict_spec :
    (∀ e : AppException, to_dict e =
      [("success".toList, DVal.b false),
       ("error".toList, DVal.s e.user_message),
       ("error_code".toList, DVal.s e.error_code)] ++ e.details) ∧
    (∀ url reason, (URLValidationError url reason).error_code = "VALIDATION_ERROR".toList) ∧
    (∀ url reason sc, (URLFetchError url reason sc).error_code = "URL_FETCH_ERROR".toList) ∧
    (∀ url reason, (TextExtractionError url reason).error_code = "TEXT_EXTRACTION_ERROR".toList) ∧
    (∀ r ae rc, (OpenAIError r ae rc).error_code = "OPENAI_ERROR".toList) ∧
    (∀ ra, (RateLimitError ra).error_code = "RATE_LIMIT_ERROR".toList) ∧
    (∀ r u s, (PostGenerationError r u s).error_code = "POST_GENERATION_ERROR".toList) ∧
    (∀ p r, (ConfigurationError p r).error_code = "CONFIGURATION_ERROR".toList) ∧
    (∀ e : AppException, handle_exception (.app e) = to_dict e) ∧
    (∀ ty msg, handle_exception (.other ty msg) =
      [("success".toList, DVal.b false),
       ("error".toList,
        DVal.s ("Произошла непредвиденная ошибка. " ++
                "Администратор уже уведомлен.").toList),
       ("error_code".toList, DVal.s "INTERNAL_ERROR".toList)]) := by
  refine ⟨fun e => rfl, fun _ _ => rfl, fun _ _ _ => rfl, fun _ _ => rfl,
    fun _ _ _ => rfl, fun _ => rfl, fun _ _ _ => rfl, fun _ _ => rfl,
    fun _ => rfl, fun _ _ => rfl⟩

/-- C8: style resolution is total and always lands on a key of the style
table; absent and empty inputs give the default style, and an input whose
lowercased, trimmed form is neither a table key nor a style identifier
falls back to the default style. -/
theorem validate_style_total (style : Option (List Char)) :
    ((STYLES.lookup (validate_style style)).isSome = true) ∧
    (validate_style none = DEFAULT_STYLE) ∧
    (validate_style (some []) = DEFAULT_STYLE) ∧
    (∀ s, style = some s → ¬s = [] →
      (STYLES.lookup (pyStrip (s.map pyLower))).isSome = false →
      STYLES.find? (fun kv => kv.2 == pyStrip (s.map pyLower)) = none →
      validate_style style = DEFAULT_STYLE) := by
  refine ⟨?_, rfl, by decide, ?_⟩
  · match style with
    | none => decide
    | some s =>
      by_cases he : s = []
      · subst he; decide
      · show (STYLES.lookup (if s = [] then DEFAULT_STYLE else
          (if (STYLES.lookup (pyStrip (s.map pyLower))).isSome = true then pyStrip (s.map pyLower)
           else match STYLES.find? (fun kv => kv.2 == pyStrip (s.map pyLower)) with
                | some kv => kv.1
                | none => DEFAULT_STYLE))).isSome = true
        rw [if_neg he]
        by_cases hl : (STYLES.lookup (pyStrip (s.map pyLower))).isSome = true
        · rw [if_pos hl]; exact hl
        · have hl' : (STYLES.lookup (pyStrip (s.map pyLower))).isSome = false := by
            revert hl; cases (STYLES.lookup (pyStrip (s.map pyLower))).isSome <;> simp
          cases hf : STYLES.find? (fun kv => kv.2 == pyStrip (s.map pyLower)) with
          | none => simp only [hl', Bool.false_eq_true, if_false, hf]; decide
          | some kv =>
            have hmem : kv ∈ STYLES := List.mem_of_find?_eq_some hf
            simp only [hl', hf, Bool.false_eq_true, if_false]
            fin_cases hmem <;> decide
  · intro s hs he hl hf
    subst hs
    show (if s = [] then DEFAULT_STYLE else
          (if (STYLES.lookup (pyStrip (s.map pyLower))).isSome = true then pyStrip (s.map pyLower)
           else match STYLES.find? (fun kv => kv.2 == pyStrip (s.map pyLower)) with
                | some kv => kv.1
                | none => DEFAULT_STYLE)) = DEFAULT_STYLE
    rw [if_neg he]
    simp [hl, hf]

theorem validate_style_total_witness :
    validate_style (some "nope".toList) = DEFAULT_STYLE :=
  (validate_style_total (some "nope".toList)).2.2.2 "nope".toList rfl
    (by decide) (by decide) (by decide)

/-- C3: with `max_retries = 3` and the first two attempts timing out, the
client sleeps `2^0` and `2^1` seconds between attempts; a success on the
third attempt returns the (trimmed) third text with `failed_requests`
untouched and `total_requests` incremented, while a third timeout
terminates the invocation with a single `failed_requests` increment and an
upstream failure carrying `retry_count = 3` and the last underlying
timeout error. -/
theorem retry_then_success (env : Nat → AttemptResult) (st : ClientState)
    (m0 m1 : List Char) (h0 : env 0 = .timeout m0) (h1 : env 1 = .timeout m1) :
    (∀ text tokens, env 2 = .ok text tokens →
      generate_text env 3 st =
        ⟨.ok (pyStrip text), recordSuccess st tokens, [1, 2], 3⟩) ∧
    (∀ m2, env 2 = .timeout m2 →
      generate_text env 3 st =
        ⟨.error (.upstream "Таймаут запроса".toList
            (some ("APITimeoutError".toList, m2)) 3),
          bumpFailed st, [1, 2], 3⟩) := by
  constructor
  · intro text tokens h2
    show genLoop env 3 st 0 [] none 3 = _
    simp only [genLoop, h0, h1, h2]
    rfl
  · intro m2 h2
    show genLoop env 3 st 0 [] none 3 = _
    simp only [genLoop, h0, h1, h2]
    rfl

theorem retry_then_success_witness :
    c3Env 0 = .timeout "t".toList ∧ c3Env 1 = .timeout "t".toList ∧
    ((∀ text tokens, c3Env 2 = .ok text tokens →
       generate_text c3Env 3 freshClient =
         ⟨.ok (pyStrip text), recordSuccess freshClient tokens, [1, 2], 3⟩) ∧
     (∀ m2, c3Env 2 = .timeout m2 →
       generate_text c3Env 3 freshClient =
         ⟨.error (.upstream "Таймаут запроса".toList
             (some ("APITimeoutError".toList, m2)) 3),
           bumpFailed freshClient, [1, 2], 3⟩)) :=
  ⟨rfl, rfl, retry_then_success c3Env freshClient "t".toList "t".toList rfl rfl⟩

/-- C4 (counterexample): a rate-limit response whose provider-supplied
retry-after hint is `0` fails immediately as claimed, but the hint is not
forwarded into the exception's details: Python's `if retry_after:` guard
(exceptions.py:249-254) drops a zero hint, so the details keys are only
`reason` and `retry_count`. -/
theorem rate_limit_zero_hint_cex :
    (generate_text (fun _ => .rateLimit (some 0) []) 3 freshClient).result =
      .error (.rateLimited (some 0)) ∧
    ((GenErr.rateLimited (some 0)).toException.details).map Prod.fst =
      ["reason".toList, "retry_count".toList] ∧
    ¬("retry_after".toList ∈
      ((GenErr.rateLimited (some 0)).toException.details).map Prod.fst) := by
  decide

/-- C4 (amended): whenever an attempt of the retry loop hits a rate-limit
response, the invocation fails immediately with the rate-limited error —
no further attempt, no backoff sleep, `failed_requests` incremented exactly
once; the raised exception carries code RATE_LIMIT_ERROR, and the
provider-supplied retry-after hint appears in its details exactly when it
is nonzero (a zero hint leaves only the reason and retry-count entries). -/
theorem rate_limit_immediate (env : Nat → AttemptResult) (maxRetries : Nat)
    (st : ClientState) (attempt : Nat) (delays : List Nat)
    (lastError : Option ApiErr) (fuel : Nat) (ra : Option Int) (m : List Char)
    (h : env attempt = .rateLimit ra m) :
    genLoop env maxRetries st attempt delays lastError (fuel + 1) =
      ⟨.error (.rateLimited ra), bumpFailed st, delays, attempt + 1⟩ ∧
    (GenErr.rateLimited ra).toException.error_code = "RATE_LIMIT_ERROR".toList ∧
    (∀ n, ra = some n → ¬n = 0 →
      ("retry_after".toList, DVal.n n) ∈ (GenErr.rateLimited ra).toException.details) ∧
    (∀ n, ra = some n → n = 0 →
      ((GenErr.rateLimited ra).toException.details).map Prod.fst =
        ["reason".toList, "retry_count".toList]) := by
  refine ⟨?_, rfl, ?_, ?_⟩
  · simp only [genLoop, h]
  · intro n hn hnz
    subst hn
    simp [GenErr.toException, RateLimitError, hnz]
  · intro n hn hz
    subst hn; subst hz
    rfl

theorem rate_limit_immediate_witness :
    ((fun _ : Nat => AttemptResult.rateLimit (some 7) []) 0 =
      .rateLimit (some 7) []) ∧
    (genLoop (fun _ : Nat => AttemptResult.rateLimit (some 7) []) 3 freshClient
        0 [] none (2 + 1) =
      ⟨.error (.rateLimited (some 7)), bumpFailed freshClient, [], 0 + 1⟩ ∧
     (GenErr.rateLimited (some 7)).toException.error_code =
       "RATE_LIMIT_ERROR".toList ∧
     (∀ n, some (7 : Int) = some n → ¬n = 0 →
       ("retry_after".toList, DVal.n n) ∈
         (GenErr.rateLimited (some 7)).toException.details) ∧
     (∀ n, some (7 : Int) = some n → n = 0 →
       ((GenErr.rateLimited (some 7)).toException.details).map Prod.fst =
         ["reason".toList, "retry_count".toList])) :=
  ⟨rfl, rate_limit_immediate (fun _ => .rateLimit (some 7) []) 3 freshClient
    0 [] none 2 (some 7) [] rfl⟩

/-- The result of the retry loop does not depend on the statistics
counters: they are only threaded through. -/
theorem genLoop_result_indep (env : Nat → AttemptResult) (mR : Nat) :
    ∀ fuel st st' a d d' l,
      (genLoop env mR st a d l fuel).result = (genLoop env mR st' a d' l fuel).result := by
  intro fuel
  induction fuel with
  | zero => intros; rfl
  | succ f ih =>
    intro st st' a d d' l
    rw [genLoop, genLoop]
    cases env a with
    | ok text tokens => rfl
    | rateLimit ra m => rfl
    | timeout m => cases f with
      | zero => rfl
      | succ f' => exact ih st st' (a + 1) _ _ _
    | connErr m => cases f with
      | zero => rfl
      | succ f' => exact ih st st' (a + 1) _ _ _
    | apiErr m => rfl
    | unexpected ty m => cases f with
      | zero => rfl
      | succ f' => exact ih st st' (a + 1) _ _ _

/-- One run of the retry loop either succeeds, incrementing
`total_requests` once and adding some token count, or terminally fails,
incrementing `failed_requests` exactly once. -/
theorem genLoop_state_spec (env : Nat → AttemptResult) (mR : Nat) :
    ∀ fuel st a d l,
      (isOkB (genLoop env mR st a d l fuel).result = true →
        ∃ tk, (genLoop env mR st a d l fuel).state =
          ⟨st.total_requests + 1, st.total_tokens + tk, st.failed_requests⟩) ∧
      (isOkB (genLoop env mR st a d l fuel).result = false →
        (genLoop env mR st a d l fuel).state = bumpFailed st) := by
  intro fuel
  induction fuel with
  | zero => intro st a d l; exact ⟨fun h => by simp [genLoop, isOkB] at h, fun _ => rfl⟩
  | succ f ih =>
    intro st a d l
    rw [genLoop]
    cases env a with
    | ok text tokens =>
      refine ⟨fun _ => ?_, fun h => by simp [isOkB] at h⟩
      cases tokens with
      | some k => exact ⟨k, rfl⟩
      | none => exact ⟨0, by simp [recordSuccess]⟩
    | rateLimit ra m => exact ⟨fun h => by simp [isOkB] at h, fun _ => rfl⟩
    | timeout m => cases f with
      | zero => exact ⟨fun h => by simp [isOkB] at h, fun _ => rfl⟩
      | succ f' => exact ih st (a + 1) _ _
    | connErr m => cases f with
      | zero => exact ⟨fun h => by simp [isOkB] at h, fun _ => rfl⟩
      | succ f' => exact ih st (a + 1) _ _
    | apiErr m => exact ⟨fun h => by simp [isOkB] at h, fun _ => rfl⟩
    | unexpected ty m => cases f with
      | zero => exact ⟨fun h => by simp [isOkB] at h, fun _ => rfl⟩
      | succ f' => exact ih st (a + 1) _ _

/-- Threading a call sequence through the counters adds the number of
successful invocations to `total_requests` and the number of failed
invocations to `failed_requests`. -/
theorem runCalls_counts : ∀ (calls : List ((Nat → AttemptResult) × Nat)) (st : ClientState),
    (runCalls calls st).total_requests = st.total_requests + okCount calls ∧
    (runCalls calls st).failed_requests = st.failed_requests + errCount calls := by
  intro calls
  induction calls with
  | nil => intro st; simp [runCalls, okCount, errCount]
  | cons c rest ih =>
    intro st
    have hrc : runCalls (c :: rest) st = runCalls rest (generate_text c.1 c.2 st).state := rfl
    have hind : isOkB (generate_text c.1 c.2 st).result =
        isOkB (generate_text c.1 c.2 freshClient).result := by
      unfold generate_text
      rw [genLoop_result_indep c.1 c.2 c.2 st freshClient 0 [] [] none]
    have hok : okCount (c :: rest) =
        (if isOkB (generate_text c.1 c.2 freshClient).result then 1 else 0) + okCount rest := by
      simp [okCount, List.countP_cons]
      rcases h : isOkB (generate_text c.1 c.2 freshClient).result
      · simp [h]
      · simp [h]; omega
    have herr : errCount (c :: rest) =
        (if isOkB (generate_text c.1 c.2 freshClient).result then 0 else 1) + errCount rest := by
      simp [errCount, List.countP_cons]
      rcases h : isOkB (generate_text c.1 c.2 freshClient).result
      · simp [h]; omega
      · simp [h]
    rw [hrc, hok, herr]
    rcases h : isOkB (generate_text c.1 c.2 freshClient).result with _ | _
    · have hst : (generate_text c.1 c.2 st).state = bumpFailed st := by
        have := (genLoop_state_spec c.1 c.2 c.2 st 0 [] none).2
        exact this (by rw [show (genLoop c.1 c.2 st 0 [] none c.2) =
          generate_text c.1 c.2 st from rfl, hind, h])
      rw [hst]
      rcases ih (bumpFailed st) with ⟨h1, h2⟩
      constructor
      · rw [h1]; simp [bumpFailed]
      · rw [h2]; simp [bumpFailed]; omega
    · obtain ⟨tk, hst⟩ := (genLoop_state_spec c.1 c.2 c.2 st 0 [] none).1
        (by rw [show (genLoop c.1 c.2 st 0 [] none c.2) =
          generate_text c.1 c.2 st from rfl, hind, h])
      rw [show (generate_text c.1 c.2 st).state =
        (genLoop c.1 c.2 st 0 [] none c.2).state from rfl, hst]
      rcases ih ⟨st.total_requests + 1, st.total_tokens + tk, st.failed_requests⟩ with ⟨h1, h2⟩
      constructor
      · rw [h1]; simp; omega
      · rw [h2]; simp

/-- C2 (amended): after a fresh client runs any sequence of `generate_text`
invocations of which N succeed and M terminally fail, `total_requests` is
N (only successes are counted, openai_module.py:165), `failed_requests` is
M, and the reported success rate is `(N - M) / N * 100` rounded to two
decimals when N > 0, and 0 when N = 0.  It equals the claimed
`N / (N + M) * 100` only when M = 0 or N = 0. -/
theorem get_statistics_counts (calls : List ((Nat → AttemptResult) × Nat)) :
    (runCalls calls freshClient).total_requests = okCount calls ∧
    (runCalls calls freshClient).failed_requests = errCount calls ∧
    (get_statistics (runCalls calls freshClient)).success_rate =
      (if 0 < okCount calls then
        round2 (((okCount calls : ℚ) - (errCount calls : ℚ)) / (okCount calls : ℚ) * 100)
      else 0) := by
  obtain ⟨h1, h2⟩ := runCalls_counts calls freshClient
  simp only [freshClient] at h1 h2
  refine ⟨by simpa using h1, by simpa using h2, ?_⟩
  simp only [get_statistics]
  rw [show (runCalls calls freshClient).total_requests = okCount calls by simpa using h1,
      show (runCalls calls freshClient).failed_requests = errCount calls by simpa using h2]
  by_cases hp : 0 < okCount calls
  · simp [hp]
  · simp [hp, round2]
    norm_num

/-- C2 (counterexample): one successful and one terminally failed
invocation on a fresh client; the claim demands a success rate of
1/(1+1)*100 = 50, but the code reports (1-1)/1*100 = 0 because the failed
invocation never incremented `total_requests`. -/
theorem statistics_cex :
    (get_statistics (runCalls [(fun _ => .ok "x".toList none, 3),
       (fun _ => .apiErr "boom".toList, 3)] freshClient)).success_rate = 0 ∧
    round2 ((1 : ℚ) / ((1 : ℚ) + 1) * 100) = 50 ∧ ¬((0 : ℚ) = 50) := by
  have hstate : runCalls [(fun _ => .ok "x".toList none, 3),
      (fun _ => .apiErr "boom".toList, 3)] freshClient = ⟨1, 0, 1⟩ := rfl
  refine ⟨?_, ?_, by norm_num⟩
  · rw [hstate]
    simp [get_statistics, round2]
    norm_num
  · norm_num [round2]

/-- C6: when the cleaned extracted text is shorter than the configured
minimum, the pipeline stops with a TEXT_EXTRACTION_ERROR exception before
any LLM call: no `generate_text` invocation happens and the client
counters are returned unchanged. -/
theorem short_text_no_llm (env : PipeEnv) (st : ClientState)
    (url u html raw : List Char) (style : Option (List Char))
    (max_length : Option Int) (max_post_length : Int) (min_text_length : Nat)
    (hv : validate_url env.structuralValid env.parse url = .ok u)
    (hf : env.fetch u = .ok html)
    (hx : env.soupText html = .ok raw)
    (hshort : (clean_text raw).length < min_text_length) :
    generate_post env st url style max_length max_post_length min_text_length =
      ⟨.error (TextExtractionError u
          (some ("Текста недостаточно: ".toList ++
            (toString (clean_text raw).length).toList ++ " символов".toList))),
        st, 0⟩ ∧
    (TextExtractionError u (some ("Текста недостаточно: ".toList ++
        (toString (clean_text raw).length).toList ++ " символов".toList))).error_code =
      "TEXT_EXTRACTION_ERROR".toList := by
  refine ⟨?_, rfl⟩
  simp only [generate_post, hv, extract_text, hf, hx, if_pos hshort]

theorem short_text_no_llm_witness :
    (validate_url (witnessEnv "short".toList "x".toList).structuralValid
       (witnessEnv "short".toList "x".toList).parse "https://example.com".toList =
       .ok "https://example.com".toList) ∧
    ((witnessEnv "short".toList "x".toList).fetch "https://example.com".toList =
       .ok "<html></html>".toList) ∧
    ((witnessEnv "short".toList "x".toList).soupText "<html></html>".toList =
       .ok "short".toList) ∧
    ((clean_text "short".toList).length < 100) ∧
    (generate_post (witnessEnv "short".toList "x".toList) freshClient
        "https://example.com".toList none none 800 100 =
      ⟨.error (TextExtractionError "https://example.com".toList
          (some ("Текста недостаточно: ".toList ++
            (toString (clean_text "short".toList).length).toList ++ " символов".toList))),
        freshClient, 0⟩ ∧
     (TextExtractionError "https://example.com".toList
        (some ("Текста недостаточно: ".toList ++
          (toString (clean_text "short".toList).length).toList ++ " символов".toList))).error_code =
       "TEXT_EXTRACTION_ERROR".toList) :=
  ⟨by decide, by decide, by decide, by decide,
   short_text_no_llm (witnessEnv "short".toList "x".toList) freshClient
     "https://example.com".toList "https://example.com".toList
     "<html></html>".toList "short".toList none none 800 100
     (by decide) (by decide) (by decide) (by decide)⟩

/-- The first element not dropped by `dropWhile` falsifies the predicate. -/
theorem dropWhile_head_false {p : Char → Bool} :
    ∀ (l : List Char) (a : Char) (rest : List Char),
      l.dropWhile p = a :: rest → p a = false := by
  intro l
  induction l with
  | nil => intro a rest h; simp [List.dropWhile] at h
  | cons c cs ih =>
    intro a rest h
    by_cases hc : p c = true
    · rw [List.dropWhile_cons_of_pos hc] at h
      exact ih a rest h
    · rw [List.dropWhile_cons_of_neg hc] at h
      cases h
      revert hc; cases p c <;> simp

/-- On a string without a space, `rsplit(' ', 1)[0]` is the identity. -/
theorem rsplitBefore_nospace (t : List Char) (h : ¬(' ' ∈ t)) : rsplitBefore t = t := by
  unfold rsplitBefore
  have : t.reverse.dropWhile (fun c => !(c = ' ')) = [] := by
    rw [List.dropWhile_eq_nil_iff]
    intro x hx
    simp only [List.mem_reverse] at hx
    have hne : ¬x = ' ' := fun he => h (he ▸ hx)
    simp [hne]
  rw [this]

/-- On a string containing a space, `rsplit(' ', 1)[0]` returns the part
before the last space: the string decomposes as that part, the last space,
and a space-free tail. -/
theorem rsplitBefore_split (t : List Char) (h : ' ' ∈ t) :
    ∃ w, t = rsplitBefore t ++ ' ' :: w ∧ ¬(' ' ∈ w) := by
  cases hd : t.reverse.dropWhile (fun c => !(c = ' ')) with
  | nil =>
    exfalso
    rw [List.dropWhile_eq_nil_iff] at hd
    have := hd ' ' (by simp [h])
    simp at this
  | cons a rest =>
    have ha : (fun c => !(c = ' ')) a = false := dropWhile_head_false t.reverse a rest hd
    have ha' : a = ' ' := by revert ha; by_cases h' : a = ' ' <;> simp [h']
    subst ha'
    have hsplit : t.reverse.takeWhile (fun c => !(c = ' ')) ++ ' ' :: rest = t.reverse := by
      rw [← hd]; exact List.takeWhile_append_dropWhile _ _
    have hres : rsplitBefore t = rest.reverse := by
      unfold rsplitBefore; rw [hd]
    refine ⟨(t.reverse.takeWhile (fun c => !(c = ' '))).reverse, ?_, ?_⟩
    · rw [hres]
      have h2 := congrArg List.reverse hsplit
      simp only [List.reverse_append, List.reverse_reverse, List.reverse_cons] at h2
      calc t = rest.reverse ++ [' '] ++ (t.reverse.takeWhile (fun c => !(c = ' '))).reverse :=
              h2.symm
        _ = rest.reverse ++ ' ' :: (t.reverse.takeWhile (fun c => !(c = ' '))).reverse := by
              simp [List.append_assoc]
    · intro hw
      simp only [List.mem_reverse] at hw
      have := List.mem_takeWhile_imp hw
      simp at this

/-- `rsplit(' ', 1)[0]` never lengthens the string. -/
theorem rsplitBefore_length_le (t : List Char) :
    (rsplitBefore t).length ≤ t.length := by
  by_cases h : ' ' ∈ t
  · obtain ⟨w, hw, -⟩ := rsplitBefore_split t h
    have := congrArg List.length hw
    simp only [List.length_append, List.length_cons] at this
    omega
  · rw [rsplitBefore_nospace t h]

/-- The resolved maximum post length always lies in [400, 4000]. -/
theorem resolveMaxLength_bounds (ml : Option Int) (d : Int) :
    400 ≤ resolveMaxLength ml d ∧ resolveMaxLength ml d ≤ 4000 := by
  unfold resolveMaxLength
  rcases ml with _ | n <;> simp only [] <;> split_ifs <;> omega

/-- Behaviour of the final truncation step on an over-long trimmed post:
the result is the first `pml` characters cut back to the last space with
an ellipsis appended, so its length is at most `pml + 3`; when those first
`pml` characters contain a space the boundary is at a space, the kept part
is space-terminated in the original, and the length is at most `pml + 2`. -/
theorem truncate_post_spec (t : List Char) (pml : Int)
    (hb : 400 ≤ pml) (hlen : pml < ((pyStrip t).length : Int)) :
    truncate_post t pml = rsplitBefore ((pyStrip t).take pml.toNat) ++ "...".toList ∧
    (truncate_post t pml).length ≤ pml.toNat + 3 ∧
    (' ' ∈ (pyStrip t).take pml.toNat →
      (truncate_post t pml).length ≤ pml.toNat + 2 ∧
      ∃ w, (pyStrip t).take pml.toNat =
        rsplitBefore ((pyStrip t).take pml.toNat) ++ ' ' :: w ∧ ¬(' ' ∈ w)) := by
  have heq : truncate_post t pml =
      rsplitBefore ((pyStrip t).take pml.toNat) ++ "...".toList := by
    unfold truncate_post
    rw [if_pos hlen]
  have htk : ((pyStrip t).take pml.toNat).length = pml.toNat := by
    rw [List.length_take]
    omega
  have hrb : (rsplitBefore ((pyStrip t).take pml.toNat)).length ≤ pml.toNat := by
    have := rsplitBefore_length_le ((pyStrip t).take pml.toNat)
    omega
  have hlen3 : ("...".toList).length = 3 := rfl
  refine ⟨heq, ?_, ?_⟩
  · rw [heq, List.length_append, hlen3]
    omega
  · intro hsp
    obtain ⟨w, hw, hnw⟩ := rsplitBefore_split ((pyStrip t).take pml.toNat) hsp
    have hl := congrArg List.length hw
    simp only [List.length_append, List.length_cons, htk] at hl
    constructor
    · rw [heq, List.length_append, hlen3]
      omega
    · exact ⟨w, hw, hnw⟩

set_option maxRecDepth 10000 in
/-- C1 (counterexample): a trimmed generated text of 401 characters with
no space, a clamped maximum of 400; `generate_post` returns the whole
400-character prefix with an appended ellipsis — 403 characters, exceeding
the claimed bound of 400, and the 401-character word is split. -/
theorem generate_post_truncation_cex :
    (generate_post (witnessEnv (List.replicate 150 'b') (List.replicate 401 'a'))
        freshClient "https://example.com".toList none (some 400) 800 100).out =
      .ok (List.replicate 400 'a' ++ "...".toList) ∧
    pyStrip (List.replicate 401 'a') = List.replicate 401 'a' ∧
    resolveMaxLength (some 400) 800 = 400 ∧
    (List.replicate 400 'a' ++ "...".toList).length = 403 := by
  decide

/-- C1 (amended): when the pipeline reaches generation and the trimmed
generated text exceeds the clamped maximum `pml`, the returned post is the
first `pml` characters cut back to the last space with an ellipsis marker
appended: it always ends in the marker and is at most `pml + 3` characters
long; when the `pml`-character prefix contains a space, the cut is at a
space of the original text (no word is split there) and the length is at
most `pml + 2`; when the prefix contains no space the entire prefix is
kept, so a word is split and the length is `pml + 3`. -/
theorem generate_post_truncation (env : PipeEnv) (st : ClientState)
    (url u html raw t ptext : List Char) (style : Option (List Char))
    (max_length : Option Int) (max_post_length : Int) (min_text_length : Nat)
    (hv : validate_url env.structuralValid env.parse url = .ok u)
    (hf : env.fetch u = .ok html)
    (hx : env.soupText html = .ok raw)
    (hlong : ¬(clean_text raw).length < min_text_length)
    (hpt : ptext = if 3000 < (clean_text raw).length
      then (clean_text raw).take 3000 ++ "...".toList else clean_text raw)
    (hllm : (generate_text (env.llm ptext) 3 st).result = .ok t)
    (hover : resolveMaxLength max_length max_post_length < ((pyStrip t).length : Int)) :
    (generate_post env st url style max_length max_post_length min_text_length).out =
      .ok (truncate_post t (resolveMaxLength max_length max_post_length)) ∧
    truncate_post t (resolveMaxLength max_length max_post_length) =
      rsplitBefore ((pyStrip t).take (resolveMaxLength max_length max_post_length).toNat) ++
        "...".toList ∧
    (truncate_post t (resolveMaxLength max_length max_post_length)).length ≤
      (resolveMaxLength max_length max_post_length).toNat + 3 ∧
    (' ' ∈ (pyStrip t).take (resolveMaxLength max_length max_post_length).toNat →
      (truncate_post t (resolveMaxLength max_length max_post_length)).length ≤
        (resolveMaxLength max_length max_post_length).toNat + 2 ∧
      ∃ w, (pyStrip t).take (resolveMaxLength max_length max_post_length).toNat =
        rsplitBefore ((pyStrip t).take (resolveMaxLength max_length max_post_length).toNat) ++
          ' ' :: w ∧ ¬(' ' ∈ w)) := by
  subst hpt
  obtain ⟨hs1, hs2, hs3⟩ := truncate_post_spec t (resolveMaxLength max_length max_post_length)
    (resolveMaxLength_bounds max_length max_post_length).1 hover
  refine ⟨?_, hs1, hs2, hs3⟩
  simp only [generate_post, hv, extract_text, hf, hx, if_neg hlong]
  cases hg : (generate_text (env.llm (if 3000 < (clean_text raw).length
      then (clean_text raw).take 3000 ++ "...".toList else clean_text raw)) 3 st).result with
  | error ge => rw [hg] at hllm; exact absurd hllm (by simp)
  | ok t' =>
    rw [hg] at hllm
    cases hllm
    rfl

set_option maxRecDepth 10000 in
theorem generate_post_truncation_witness :
    (validate_url (witnessEnv c1Soup c1Text).structuralValid
       (witnessEnv c1Soup c1Text).parse "https://example.com".toList =
       .ok "https://example.com".toList) ∧
    ((witnessEnv c1Soup c1Text).fetch "https://example.com".toList =
       .ok "<html></html>".toList) ∧
    ((witnessEnv c1Soup c1Text).soupText "<html></html>".toList = .ok c1Soup) ∧
    (¬(clean_text c1Soup).length < 100) ∧
    (c1Soup = if 3000 < (clean_text c1Soup).length
      then (clean_text c1Soup).take 3000 ++ "...".toList else clean_text c1Soup) ∧
    ((generate_text ((witnessEnv c1Soup c1Text).llm c1Soup) 3 freshClient).result =
      .ok c1Text) ∧
    (resolveMaxLength (some 400) 800 < ((pyStrip c1Text).length : Int)) ∧
    ((generate_post (witnessEnv c1Soup c1Text) freshClient
        "https://example.com".toList none (some 400) 800 100).out =
      .ok (truncate_post c1Text (resolveMaxLength (some 400) 800)) ∧
     truncate_post c1Text (resolveMaxLength (some 400) 800) =
       rsplitBefore ((pyStrip c1Text).take (resolveMaxLength (some 400) 800).toNat) ++
         "...".toList ∧
     (truncate_post c1Text (resolveMaxLength (some 400) 800)).length ≤
       (resolveMaxLength (some 400) 800).toNat + 3 ∧
     (' ' ∈ (pyStrip c1Text).take (resolveMaxLength (some 400) 800).toNat →
       (truncate_post c1Text (resolveMaxLength (some 400) 800)).length ≤
         (resolveMaxLength (some 400) 800).toNat + 2 ∧
       ∃ w, (pyStrip c1Text).take (resolveMaxLength (some 400) 800).toNat =
         rsplitBefore ((pyStrip c1Text).take (resolveMaxLength (some 400) 800).toNat) ++
           ' ' :: w ∧ ¬(' ' ∈ w))) :=
  ⟨by decide, by decide, by decide, by decide, by decide, by decide, by decide,
   generate_post_truncation (witnessEnv c1Soup c1Text) freshClient
     "https://example.com".toList "https://example.com".toList
     "<html></html>".toList c1Soup c1Text c1Soup none (some 400) 800 100
     (by decide) (by decide) (by decide) (by decide) (by decide) (by decide) (by decide)⟩

/-- Every whitespace character surviving the whitespace-collapse pass is
the single replacement space. -/
theorem collapseWsAux_ws_eq_space :
    ∀ (s : List Char) (b : Bool) (c : Char), c ∈ collapseWsAux b s →
      isPySpace c = true → c = ' ' := by
  intro s
  induction s with
  | nil => intro b c hc; simp [collapseWsAux] at hc
  | cons a rest ih =>
    intro b c hc hw
    by_cases ha : isPySpace a = true
    · cases b with
      | true =>
        simp only [collapseWsAux, ha, if_true] at hc
        exact ih true c hc hw
      | false =>
        simp only [collapseWsAux, ha, if_true, Bool.false_eq_true, if_false] at hc
        rcases List.mem_cons.mp hc with h | h
        · exact h
        · exact ih true c h hw
    · simp only [collapseWsAux, ha, if_false, Bool.false_eq_true] at hc
      rcases List.mem_cons.mp hc with h | h
      · subst h; exact absurd hw ha
      · exact ih false c h hw

/-- The whitespace-collapse pass removes every newline. -/
theorem collapseWs_no_newline (s : List Char) : ¬('\n' ∈ collapseWs s) := by
  intro h
  have := collapseWsAux_ws_eq_space s false '\n' h (by decide)
  simp at this

/-- The newline-collapse pass is the identity on newline-free text. -/
theorem collapseNlAux_id : ∀ (s : List Char) (b : Bool), ¬('\n' ∈ s) →
    collapseNlAux b s = s := by
  intro s
  induction s with
  | nil => intro b _; rfl
  | cons a rest ih =>
    intro b h
    have ha : ¬a = '\n' := fun he => h (by rw [he]; exact List.mem_cons_self _ _)
    have hrest : ¬('\n' ∈ rest) := fun hr => h (List.mem_cons_of_mem _ hr)
    unfold collapseNlAux
    rw [if_neg ha, ih false hrest]

/-- In the in-a-run state the collapse pass first skips the pending
whitespace run. -/
theorem collapseWsAux_true_eq (s : List Char) :
    collapseWsAux true s = collapseWsAux false (s.dropWhile isPySpace) := by
  induction s with
  | nil => rfl
  | cons a rest ih =>
    by_cases ha : isPySpace a = true
    · rw [List.dropWhile_cons_of_pos ha]
      simp only [collapseWsAux, ha, if_true]
      exact ih
    · rw [List.dropWhile_cons_of_neg ha]
      simp only [collapseWsAux, ha, if_false, Bool.false_eq_true]

/-- The collapse pass started on a stripped run boundary emits a
non-whitespace first character. -/
theorem collapseWsAux_false_head (s : List Char) (y : Char)
    (h : (collapseWsAux false (s.dropWhile isPySpace)).head? = some y) :
    isPySpace y = false := by
  cases hd : s.dropWhile isPySpace with
  | nil => rw [hd] at h; simp [collapseWsAux] at h
  | cons a rest =>
    have ha : isPySpace a = false := dropWhile_head_false s a rest hd
    rw [hd] at h
    simp only [collapseWsAux, ha, Bool.false_eq_true, if_false, List.head?_cons] at h
    cases h
    exact ha

/-- The whitespace-collapse pass never emits two adjacent whitespace
characters. -/
theorem collapseWs_chain : ∀ (n : Nat) (s : List Char), s.length ≤ n →
    List.Chain' (fun a b => (isPySpace a && isPySpace b) = false) (collapseWsAux false s) := by
  intro n
  induction n with
  | zero =>
    intro s hs
    have : s = [] := List.length_eq_zero.mp (Nat.le_zero.mp hs)
    subst this
    simp [collapseWsAux]
  | succ n ih =>
    intro s hs
    cases s with
    | nil => simp [collapseWsAux]
    | cons a rest =>
      by_cases ha : isPySpace a = true
      · simp only [collapseWsAux, ha, if_true, Bool.false_eq_true, if_false]
        rw [collapseWsAux_true_eq]
        rw [List.chain'_cons']
        constructor
        · intro y hy
          have := collapseWsAux_false_head rest y (Option.mem_def.mp hy)
          simp [this]
        · refine ih (rest.dropWhile isPySpace) ?_
          have h1 : (rest.dropWhile isPySpace).length ≤ rest.length :=
            (List.dropWhile_suffix isPySpace).sublist.length_le
          simp only [List.length_cons] at hs
          omega
      · simp only [collapseWsAux, ha, Bool.false_eq_true, if_false]
        rw [List.chain'_cons']
        constructor
        · intro y _
          simp [ha]
        · refine ih rest ?_
          simp only [List.length_cons] at hs
          omega

/-- The head of a `dropWhile` result falsifies the predicate. -/
theorem dropWhile_head?_false {p : Char → Bool} (l : List Char) (y : Char)
    (h : (l.dropWhile p).head? = some y) : p y = false := by
  cases hd : l.dropWhile p with
  | nil => rw [hd] at h; simp at h
  | cons a rest =>
    rw [hd] at h
    simp only [List.head?_cons, Option.some.injEq] at h
    subst h
    exact dropWhile_head_false l _ _ hd

/-- Stripping both ends preserves the no-two-adjacent-whitespace
invariant. -/
theorem pyStrip_chain (r : List Char)
    (h : List.Chain' (fun a b => (isPySpace a && isPySpace b) = false) r) :
    List.Chain' (fun a b => (isPySpace a && isPySpace b) = false) (pyStrip r) := by
  have hsymm : ∀ (l : List Char),
      List.Chain' (fun a b => (isPySpace a && isPySpace b) = false) l →
      List.Chain' (fun a b => (isPySpace a && isPySpace b) = false) l.reverse := by
    intro l hl
    rw [List.chain'_reverse]
    exact hl.imp (fun a b hab => by
      simp only [flip]
      rw [Bool.and_comm]
      exact hab)
  have h1 := h.suffix (List.dropWhile_suffix isPySpace)
  have h2 := hsymm _ h1
  have h3 := h2.suffix (List.dropWhile_suffix isPySpace)
  exact hsymm _ h3

/-- A stripped string does not end in whitespace. -/
theorem pyStrip_last (r : List Char) (y : Char)
    (h : (pyStrip r).getLast? = some y) : isPySpace y = false := by
  unfold pyStrip at h
  rw [List.getLast?_reverse] at h
  exact dropWhile_head?_false _ y h

/-- A stripped string does not start with whitespace. -/
theorem pyStrip_head (r : List Char) (y : Char)
    (h : (pyStrip r).head? = some y) : isPySpace y = false := by
  unfold pyStrip at h
  rw [List.head?_reverse] at h
  have hsfx : ((r.dropWhile isPySpace).reverse.dropWhile isPySpace) <:+
      (r.dropWhile isPySpace).reverse := List.dropWhile_suffix isPySpace
  have hpre := hsfx.reverse
  rw [List.reverse_reverse] at hpre
  obtain ⟨k, hk⟩ := hpre
  cases hrev : ((r.dropWhile isPySpace).reverse.dropWhile isPySpace).reverse with
  | nil =>
    rw [List.getLast?_eq_head?_reverse, hrev] at h
    simp at h
  | cons a z =>
    rw [List.getLast?_eq_head?_reverse, hrev] at h
    simp only [List.head?_cons, Option.some.injEq] at h
    rw [hrev] at hk
    have hhead : (r.dropWhile isPySpace).head? = some a := by
      rw [← hk]
      rfl
    have hf := dropWhile_head?_false r a hhead
    rw [h] at hf
    exact hf

/-- Stripping only removes characters. -/
theorem pyStrip_subset (r : List Char) : pyStrip r ⊆ r := by
  intro c hc
  unfold pyStrip at hc
  rw [List.mem_reverse] at hc
  have hc2 := (List.dropWhile_suffix isPySpace).sublist.subset hc
  rw [List.mem_reverse] at hc2
  exact (List.dropWhile_suffix isPySpace).sublist.subset hc2

/-- The run state is irrelevant when the text starts with a
non-whitespace character. -/
theorem collapseWsAux_true_of_head (s : List Char)
    (hh : ∀ y, s.head? = some y → isPySpace y = false) :
    collapseWsAux true s = collapseWsAux false s := by
  cases s with
  | nil => rfl
  | cons a rest =>
    have ha : isPySpace a = false := hh a rfl
    simp only [collapseWsAux, ha, Bool.false_eq_true, if_false]

/-- The whitespace-collapse pass is the identity on text whose whitespace
is lone single spaces. -/
theorem collapseWs_id : ∀ (s : List Char),
    (∀ c ∈ s, isPySpace c = true → c = ' ') →
    List.Chain' (fun a b => (isPySpace a && isPySpace b) = false) s →
    collapseWsAux false s = s := by
  intro s
  induction s with
  | nil => intro _ _; rfl
  | cons a rest ih =>
    intro hws hch
    rw [List.chain'_cons'] at hch
    obtain ⟨hR, hchain⟩ := hch
    by_cases ha : isPySpace a = true
    · have ha' : a = ' ' := hws a (List.mem_cons_self _ _) ha
      have hresthead : ∀ y, rest.head? = some y → isPySpace y = false := by
        intro y hy
        have := hR y (Option.mem_def.mpr hy)
        revert this
        cases hy2 : isPySpace y
        · intro _; rfl
        · rw [ha]; simp
      simp only [collapseWsAux, ha, if_true]
      rw [collapseWsAux_true_of_head rest hresthead,
        ih (fun c hc hw => hws c (List.mem_cons_of_mem _ hc) hw) hchain, ha']
      simp only [Bool.false_eq_true, if_false]
    · simp only [collapseWsAux, ha, Bool.false_eq_true, if_false]
      rw [ih (fun c hc hw => hws c (List.mem_cons_of_mem _ hc) hw) hchain]

/-- `dropWhile` is the identity when the head already falsifies the
predicate. -/
theorem dropWhile_eq_self_of_head (p : Char → Bool) (l : List Char)
    (hh : ∀ y, l.head? = some y → p y = false) : l.dropWhile p = l := by
  cases l with
  | nil => rfl
  | cons a rest =>
    have := hh a rfl
    rw [List.dropWhile_cons_of_neg (by simp [this])]

/-- Stripping is the identity on a string with non-whitespace ends. -/
theorem pyStrip_id (r : List Char)
    (hh : ∀ y, r.head? = some y → isPySpace y = false)
    (hl : ∀ y, r.getLast? = some y → isPySpace y = false) : pyStrip r = r := by
  unfold pyStrip
  rw [dropWhile_eq_self_of_head _ r hh]
  rw [dropWhile_eq_self_of_head _ r.reverse
    (fun y hy => hl y (by rwa [List.head?_reverse] at hy))]
  exact List.reverse_reverse r

/-- C10: the output of `clean_text` contains no newline, never has two
adjacent whitespace characters, and neither starts nor ends with
whitespace; consequently `clean_text` is idempotent. -/
theorem clean_text_spec (s : List Char) :
    (clean_text s).count '\n' = 0 ∧
    List.Chain' (fun a b => (isPySpace a && isPySpace b) = false) (clean_text s) ∧
    Option.all (fun c => !isPySpace c) (clean_text s).head? = true ∧
    Option.all (fun c => !isPySpace c) (clean_text s).getLast? = true ∧
    clean_text (clean_text s) = clean_text s := by
  have hnl1 : ¬('\n' ∈ collapseWs s) := collapseWs_no_newline s
  have hct : clean_text s = pyStrip (collapseWs s) := by
    unfold clean_text collapseNl
    rw [collapseNlAux_id (collapseWs s) false hnl1]
  have hchain0 : List.Chain' (fun a b => (isPySpace a && isPySpace b) = false)
      (collapseWs s) := by
    unfold collapseWs
    exact collapseWs_chain s.length s le_rfl
  have hsub : clean_text s ⊆ collapseWs s := by
    rw [hct]; exact pyStrip_subset _
  have hnl : ¬('\n' ∈ clean_text s) := fun h => hnl1 (hsub h)
  have hchain : List.Chain' (fun a b => (isPySpace a && isPySpace b) = false)
      (clean_text s) := by
    rw [hct]; exact pyStrip_chain _ hchain0
  have hhead : ∀ y, (clean_text s).head? = some y → isPySpace y = false := by
    intro y hy; rw [hct] at hy; exact pyStrip_head _ y hy
  have hlast : ∀ y, (clean_text s).getLast? = some y → isPySpace y = false := by
    intro y hy; rw [hct] at hy; exact pyStrip_last _ y hy
  refine ⟨List.count_eq_zero.mpr hnl, hchain, ?_, ?_, ?_⟩
  · cases hh : (clean_text s).head? with
    | none => rfl
    | some y =>
      have := hhead y hh
      simp [Option.all, this]
  · cases hh : (clean_text s).getLast? with
    | none => rfl
    | some y =>
      have := hlast y hh
      simp [Option.all, this]
  · have hws : ∀ c ∈ clean_text s, isPySpace c = true → c = ' ' := by
      intro c hc hw
      exact collapseWsAux_ws_eq_space s false c (hsub hc) hw
    have h1 : collapseWs (clean_text s) = clean_text s := by
      unfold collapseWs
      exact collapseWs_id (clean_text s) hws hchain
    have h2 : collapseNl (clean_text s) = clean_text s := by
      unfold collapseNl
      exact collapseNlAux_id _ false hnl
    show pyStrip (collapseNl (collapseWs (clean_text s))) = clean_text s
    rw [h1, h2]
    exact pyStrip_id _ hhead hlast
